import Mathlib

/-!
Shallow embedding of the recipe-generation pipeline of the `aigohan`
repository (TypeScript, two backends: a NestJS layered one and a Hono
router one), together with proofs about the claims of its specification.

JavaScript strings are modelled as `List Char` (the repository's data is
BMP-only, where one UTF-16 code unit is one character, so JS `length`,
`substring` and lexicographic comparison agree with the `List Char`
model).  JS whitespace is modelled by the ASCII whitespace characters
that occur in the repository's data.  `JSON.parse` is modelled by a
recursive-descent parser for the integral, basic-escape fragment of
JSON, which covers every JSON text the claims mention.
-/

set_option maxRecDepth 20000

namespace Aigohan

/-- JS strings as lists of characters. -/
abbrev JStr := List Char

/-- Coerce a Lean string literal to the JS string model. -/
def S (s : String) : JStr := s.data

/-- The `\x7b` character (left curly bracket). -/
def openBrace : Char := Char.ofNat 123

/-- The `\x7d` character (right curly bracket). -/
def closeBrace : Char := Char.ofNat 125

/-- Whitespace characters recognised by JS `trim` / regex `\s`
(restricted to the ASCII whitespace occurring in this repository). -/
def jsWs (c : Char) : Bool :=
  c = ' ' || c = '\t' || c = '\n' || c = '\r' ||
  c = Char.ofNat 11 || c = Char.ofNat 12

/-- Model of `String.prototype.trim`. -/
def jsTrim (cs : JStr) : JStr :=
  ((cs.dropWhile jsWs).reverse.dropWhile jsWs).reverse

/-- Model of `str.replace(/[class]+$/, '')`: remove the maximal trailing
run of characters satisfying `p`. -/
def stripTrailingRun (p : Char → Bool) (cs : JStr) : JStr :=
  (cs.reverse.dropWhile p).reverse

/-- Title trailing-punctuation class `[。、！？\.\,\!\?]` of
`RecipeEnhancerService.enhanceTitle`. -/
def isTitlePunct (c : Char) : Bool :=
  c = '。' || c = '、' || c = '！' || c = '？' || c = '.' || c = ',' ||
  c = '!' || c = '?'

/-- Terminal-punctuation class `[。！？\.\!\?]` used by the description
and instruction enhancement. -/
def isTerminalPunct (c : Char) : Bool :=
  c = '。' || c = '！' || c = '？' || c = '.' || c = '!' || c = '?'

/-- Does the string end with a terminal punctuation character
(`enhanced.match(/[。！？\.\!\?]$/)`)? -/
def endsWithTerminal (cs : JStr) : Bool :=
  match cs.getLast? with
  | some c => isTerminalPunct c
  | none => false

/-- CJK detection `/[぀-ゟ゠-ヿ一-龯]/`. -/
def isCJK (c : Char) : Bool :=
  (0x3040 ≤ c.toNat && c.toNat ≤ 0x309F) ||
  (0x30A0 ≤ c.toNat && c.toNat ≤ 0x30FF) ||
  (0x4E00 ≤ c.toNat && c.toNat ≤ 0x9FAF)

/-- Latin-letter detection `/[a-zA-Z]/`. -/
def isLatinLetter (c : Char) : Bool :=
  ('a' ≤ c && c ≤ 'z') || ('A' ≤ c && c ≤ 'Z')

def hasCJK (cs : JStr) : Bool := cs.any isCJK

def hasLatin (cs : JStr) : Bool := cs.any isLatinLetter

/-- Lowercase ASCII test `/^[a-z]/` applied to a single character. -/
def isLowerAsciiChar (c : Char) : Bool := 'a' ≤ c && c ≤ 'z'

/-- JS `toLowerCase`, character-wise (the repository's data is ASCII
plus CJK, on which JS lowercasing agrees with ASCII lowercasing). -/
def lowerJStr (cs : JStr) : JStr := cs.map Char.toLower

/-- Decimal digits of a natural number (fuel-driven so that the kernel
can evaluate it). -/
def natDecimalAux : Nat → Nat → JStr
  | 0, _ => []
  | fuel + 1, n =>
    if n < 10 then [Char.ofNat (48 + n)]
    else natDecimalAux fuel (n / 10) ++ [Char.ofNat (48 + n % 10)]

/-- Decimal representation of a natural number, as `String(n)`. -/
def natToDecimal (n : Nat) : JStr := natDecimalAux (n + 1) n

/-- Decimal representation of an integer, as JS `String(n)`. -/
def intToDecimal (n : Int) : JStr :=
  if n < 0 then '-' :: natToDecimal n.natAbs else natToDecimal n.natAbs

/-- Does `hay` begin with `pat`? -/
def jstrBeginsWith : JStr → JStr → Bool
  | _, [] => true
  | [], _ :: _ => false
  | h :: hs, p :: ps => h = p && jstrBeginsWith hs ps

/-- Model of JS `String.prototype.includes`: does `hay` contain `pat`
as a contiguous substring? -/
def containsSub (pat : JStr) : JStr → Bool
  | [] => jstrBeginsWith [] pat
  | h :: t => jstrBeginsWith (h :: t) pat || containsSub pat t

/-- Lexicographic strict order on JS strings by character code, the
order used by the default `Array.prototype.sort` comparator. -/
def jstrLt : JStr → JStr → Bool
  | [], [] => false
  | [], _ :: _ => true
  | _ :: _, [] => false
  | a :: as, b :: bs =>
    if a.toNat < b.toNat then true
    else if b.toNat < a.toNat then false
    else jstrLt as bs

/-- Insert into a sorted list (ascending `jstrLt`). -/
def insertSorted (x : JStr) : List JStr → List JStr
  | [] => [x]
  | y :: ys => if jstrLt x y then x :: y :: ys else y :: insertSorted x ys

/-- Sort a list of JS strings ascending by `jstrLt`; extensionally the
default `Array.prototype.sort()` (equal strings are interchangeable, so
stability is irrelevant). -/
def sortJStrs (l : List JStr) : List JStr := l.foldr insertSorted []

/-- Set-insertion dedup with an explicit `seen` accumulator.  This is
the order of iteration of `new Set(list)`: first occurrences survive, in
first-seen order. -/
def dedupAux (seen : List JStr) : List JStr → List JStr
  | [] => []
  | x :: xs =>
    if x ∈ seen then dedupAux seen xs
    else x :: dedupAux (seen ++ [x]) xs

/-- Model of `[...new Set(list)]`. -/
def dedupKeepFirst (l : List JStr) : List JStr := dedupAux [] l

/-- Specification-side dedup written independently: fold the list from
the left, appending each element not seen before.  Keeping the first
occurrence of each element in first-seen order is evident from this
form; `dedupKeepFirst` is proved equal to it. -/
def firstSeenDedup (l : List JStr) : List JStr :=
  l.foldl (fun acc x => if x ∈ acc then acc else acc ++ [x]) []

/-! JSON model.  `JsonValue` is the value universe of `JSON.parse`
restricted to integral numbers (no number in the repository's claims is
fractional). -/

inductive JsonValue where
  | null
  | bool (b : Bool)
  | num (n : Int)
  | str (s : JStr)
  | arr (items : List JsonValue)
  | obj (fields : List (JStr × JsonValue))

/-- Whitespace skipped between JSON tokens. -/
def skipWs (cs : JStr) : JStr := cs.dropWhile jsWs

/-- Translation of a JSON string escape character. -/
def escChar (c : Char) : Option Char :=
  if c = '"' then some '"'
  else if c = '\\' then some '\\'
  else if c = '/' then some '/'
  else if c = 'n' then some '\n'
  else if c = 't' then some '\t'
  else if c = 'r' then some '\r'
  else if c = 'b' then some (Char.ofNat 8)
  else if c = 'f' then some (Char.ofNat 12)
  else none

/-- Parse the body of a JSON string after the opening quote; returns the
decoded content and the rest of the input after the closing quote. -/
def parseStringBody : JStr → Option (JStr × JStr)
  | [] => none
  | c :: rest =>
    if c = '"' then some ([], rest)
    else if c = '\\' then
      match rest with
      | [] => none
      | e :: rest2 =>
        match escChar e with
        | some ec => (parseStringBody rest2).map fun p => (ec :: p.1, p.2)
        | none => none
    else (parseStringBody rest).map fun p => (c :: p.1, p.2)

/-- Convert a nonempty digit run to a natural number. -/
def digitsToNat (ds : JStr) : Nat :=
  ds.foldl (fun acc c => acc * 10 + (c.toNat - 48)) 0

/-- Parse a JSON integer (optional minus sign, digit run). -/
def parseIntTok (cs : JStr) : Option (Int × JStr) :=
  match cs with
  | '-' :: rest =>
    let p := rest.span Char.isDigit
    if p.1.isEmpty then none else some (-(Int.ofNat (digitsToNat p.1)), p.2)
  | _ =>
    let p := cs.span Char.isDigit
    if p.1.isEmpty then none else some (Int.ofNat (digitsToNat p.1), p.2)

/-- Parse the elements of a JSON array after the opening bracket,
given a parser `pv` for one value. -/
def parseArrTail (pv : JStr → Option (JsonValue × JStr)) :
    Nat → JStr → Option (List JsonValue × JStr)
  | 0, _ => none
  | fuel + 1, cs =>
    match pv cs with
    | none => none
    | some (v, r1) =>
      match skipWs r1 with
      | ',' :: r2 =>
        match parseArrTail pv fuel r2 with
        | some (vs, r3) => some (v :: vs, r3)
        | none => none
      | ']' :: r2 => some ([v], r2)
      | _ => none

/-- Parse the fields of a JSON object after the opening bracket,
given a parser `pv` for one value. -/
def parseObjTail (pv : JStr → Option (JsonValue × JStr)) :
    Nat → JStr → Option (List (JStr × JsonValue) × JStr)
  | 0, _ => none
  | fuel + 1, cs =>
    match skipWs cs with
    | '"' :: r0 =>
      match parseStringBody r0 with
      | none => none
      | some (key, r1) =>
        match skipWs r1 with
        | ':' :: r2 =>
          match pv r2 with
          | none => none
          | some (v, r3) =>
            match skipWs r3 with
            | ',' :: r4 =>
              match parseObjTail pv fuel r4 with
              | some (fs, r5) => some ((key, v) :: fs, r5)
              | none => none
            | c :: r4 =>
              if c = closeBrace then some ([(key, v)], r4) else none
            | [] => none
        | _ => none
    | _ => none

/-- Recursive-descent parser for one JSON value (fuel-driven). -/
def parseJsonVal : Nat → JStr → Option (JsonValue × JStr)
  | 0, _ => none
  | fuel + 1, cs0 =>
    match skipWs cs0 with
    | [] => none
    | c :: rest =>
      if c = '"' then
        (parseStringBody rest).map fun p => (.str p.1, p.2)
      else if c = '[' then
        match skipWs rest with
        | ']' :: r2 => some (.arr [], r2)
        | r1 =>
          match parseArrTail (parseJsonVal fuel) fuel r1 with
          | some (vs, r2) => some (.arr vs, r2)
          | none => none
      else if c = openBrace then
        match skipWs rest with
        | d :: r2 =>
          if d = closeBrace then some (.obj [], r2)
          else
            match parseObjTail (parseJsonVal fuel) fuel (d :: r2) with
            | some (fs, r3) => some (.obj fs, r3)
            | none => none
        | [] => none
      else if c = 't' then
        if jstrBeginsWith rest (S "rue") then some (.bool true, rest.drop 3)
        else none
      else if c = 'f' then
        if jstrBeginsWith rest (S "alse") then some (.bool false, rest.drop 4)
        else none
      else if c = 'n' then
        if jstrBeginsWith rest (S "ull") then some (.null, rest.drop 3)
        else none
      else if c = '-' || c.isDigit then
        (parseIntTok (c :: rest)).map fun p => (.num p.1, p.2)
      else none

/-- Model of `JSON.parse` (integral, basic-escape fragment): parse one
value and require only whitespace after it; `none` models a thrown
`SyntaxError`. -/
def jsonParse (cs : JStr) : Option JsonValue :=
  match parseJsonVal (cs.length + 1) cs with
  | some (v, rest) => if (skipWs rest).isEmpty then some v else none
  | none => none

mutual

/-- Model of JS `String(v)` on the JSON value universe.
`Array.prototype.toString` joins element strings with commas. -/
def jsToString : JsonValue → JStr
  | .null => S "null"
  | .bool true => S "true"
  | .bool false => S "false"
  | .num n => intToDecimal n
  | .str s => s
  | .arr items =>
    match jsToStringList items with
    | [] => []
    | x :: xs => xs.foldl (fun acc y => acc ++ ',' :: y) x
  | .obj _ => S "[object Object]"

/-- Stringification of every element of a JSON array. -/
def jsToStringList : List JsonValue → List JStr
  | [] => []
  | v :: vs => jsToString v :: jsToStringList vs

end

/-- JS truthiness of a JSON value. -/
def jsTruthy : JsonValue → Bool
  | .null => false
  | .bool b => b
  | .num n => n ≠ 0
  | .str s => !s.isEmpty
  | .arr _ => true
  | .obj _ => true

/-- Model of JS `Number(v)`; `none` is `NaN`.  (Strings are coerced via
the integer syntax; arrays/objects other than the cases below give
`NaN` in the repository's data.) -/
def jsNumberOf : JsonValue → Option Int
  | .null => some 0
  | .bool b => some (if b then 1 else 0)
  | .num n => some n
  | .str s =>
    let t := jsTrim s
    if t.isEmpty then some 0
    else
      match parseIntTok t with
      | some (n, rest) => if rest.isEmpty then some n else none
      | none => none
  | .arr _ => none
  | .obj _ => none

/-- Property access `data.key` on a parsed JSON value (`none` models
`undefined`). -/
def objGet (v : JsonValue) (key : JStr) : Option JsonValue :=
  match v with
  | .obj fields => (fields.find? fun f => f.1 == key).map (·.2)
  | _ => none

/-! The `Recipe` data model (`types/recipe.types.ts`, `schemas/recipe.ts`). -/

structure Recipe where
  title : JStr
  description : JStr
  ingredients : List JStr
  instructions : List JStr
  cookingTime : Option Int
  servings : Option Int
deriving DecidableEq, Repr

/-! `RecipeEnhancerService` (NestJS backend,
`modules/recipes/services/recipe-enhancer.service.ts`). -/

/-- The title after trimming, length-capping and trailing-punctuation
stripping, i.e. `enhanceTitle` just before its capitalization step. -/
def titlePreCap (title : JStr) : JStr :=
  let e1 := jsTrim title
  let e2 := if 100 < e1.length then e1.take 97 ++ S "..." else e1
  stripTrailingRun isTitlePunct e2

/-- `RecipeEnhancerService.enhanceTitle`. -/
def enhanceTitle (title : JStr) : JStr :=
  match titlePreCap title with
  | [] => []
  | c :: rest =>
    if isLowerAsciiChar c then Char.toUpper c :: rest else c :: rest

/-- `RecipeEnhancerService.enhanceDescription`. -/
def enhanceDescription (description : JStr) : JStr :=
  let e1 := jsTrim description
  let e2 := if 500 < e1.length then e1.take 497 ++ S "..." else e1
  if !e2.isEmpty && !endsWithTerminal e2 then
    if hasCJK e2 then e2 ++ [Char.ofNat 0x3002]
    else if hasLatin e2 then e2 ++ ['.']
    else e2
  else e2

/-- Leading bullet/dash class `[・\-\*\s]` of `enhanceIngredients`. -/
def isBulletLead (c : Char) : Bool :=
  c = Char.ofNat 0x30FB || c = '-' || c = '*' || jsWs c

/-- Trailing Japanese punctuation class `[。、]` of
`enhanceIngredients`. -/
def isJaTrailPunct (c : Char) : Bool :=
  c = Char.ofNat 0x3002 || c = Char.ofNat 0x3001

/-- The per-ingredient cleanup inside `enhanceIngredients`. -/
def cleanIngredient (ingredient : JStr) : JStr :=
  let e1 := jsTrim ingredient
  let e2 := e1.dropWhile isBulletLead
  let e3 := stripTrailingRun isJaTrailPunct e2
  if 150 < e3.length then e3.take 147 ++ S "..." else e3

/-- The seasoning keyword list of
`RecipeEnhancerService.sortIngredients`. -/
def seasoningKeywords : List JStr :=
  [S "塩", S "しょうゆ", S "醤油", S "味噌", S "みそ", S "ソース",
   S "砂糖", S "みりん", S "酒", S "酢", S "胡椒", S "コショウ",
   S "油", S "オイル", S "バター"]

/-- The keyword test of `sortIngredients`
(`ingredient.toLowerCase().includes(keyword.toLowerCase())`). -/
def isSeasoningKeyword (ingredient : JStr) : Bool :=
  seasoningKeywords.any fun k =>
    containsSub (lowerJStr k) (lowerJStr ingredient)

/-- `RecipeEnhancerService.sortIngredients`: partition into main
ingredients and seasonings (keyword match, or name shorter than 10
characters), sort each partition, and concatenate (the `others` bucket
of the source is never filled). -/
def sortIngredients (ingredients : List JStr) : List JStr :=
  let seasonings := ingredients.filter fun i =>
    isSeasoningKeyword i || i.length < 10
  let mains := ingredients.filter fun i =>
    !(isSeasoningKeyword i || i.length < 10)
  let others : List JStr := []
  sortJStrs mains ++ sortJStrs seasonings ++ sortJStrs others

/-- `RecipeEnhancerService.enhanceIngredients`. -/
def enhanceIngredients (ingredients : List JStr) : List JStr :=
  let uniqueIngredients := dedupKeepFirst (ingredients.map jsTrim)
  let validIngredients := uniqueIngredients.filter fun i => 0 < i.length
  sortIngredients (validIngredients.map cleanIngredient)

/-- Leading numbering/bullet class `[\d\.\)\s\-\*・]` of
`enhanceInstructions`. -/
def isInstrLead (c : Char) : Bool :=
  c.isDigit || c = '.' || c = ')' || jsWs c || c = '-' || c = '*' ||
  c = Char.ofNat 0x30FB

/-- The map body of `enhanceInstructions` at 0-based index `idx`. -/
def enhanceOneInstruction (idx : Nat) (instruction : JStr) : JStr :=
  let e1 := jsTrim instruction
  let e2 := e1.dropWhile isInstrLead
  let e3 := natToDecimal (idx + 1) ++ '.' :: ' ' :: e2
  let e4 :=
    if !endsWithTerminal e3 then
      if hasCJK e3 then e3 ++ [Char.ofNat 0x3002]
      else if hasLatin e3 then e3 ++ ['.']
      else e3
    else e3
  if 300 < e4.length then e4.take 297 ++ S "..." else e4

/-- Map with a 0-based index, structurally. -/
def mapWithIdx (f : Nat → α → β) : Nat → List α → List β
  | _, [] => []
  | i, x :: xs => f i x :: mapWithIdx f (i + 1) xs

/-- `RecipeEnhancerService.enhanceInstructions`: renumber by original
index, then drop results of length at most 3. -/
def enhanceInstructions (instructions : List JStr) : List JStr :=
  (mapWithIdx enhanceOneInstruction 0 instructions).filter fun i =>
    3 < i.length

/-- `RecipeEnhancerService.validateCookingTime` (on the integral
values of the data model, where `Math.round` is the identity). -/
def validateCookingTime : Option Int → Option Int
  | none => none
  | some cookingTime =>
    if cookingTime < 1 then some 5
    else if 480 < cookingTime then some 480
    else some cookingTime

/-- `RecipeEnhancerService.validateServings`. -/
def validateServings : Option Int → Option Int
  | none => none
  | some servings =>
    if servings < 1 then some 1
    else if 20 < servings then some 20
    else some servings

/-- `RecipeEnhancerService.enhanceRecipe`. -/
def enhanceRecipe (r : Recipe) : Recipe where
  title := enhanceTitle r.title
  description := enhanceDescription r.description
  ingredients := enhanceIngredients r.ingredients
  instructions := enhanceInstructions r.instructions
  cookingTime := validateCookingTime r.cookingTime
  servings := validateServings r.servings

/-- Specification-side predicate: a syntactically valid recipe in the
sense of claim C5 (non-empty title and description, non-empty arrays of
non-empty ingredient and instruction strings, optional positive
numbers). -/
def specValidRecipe (r : Recipe) : Bool :=
  0 < r.title.length && 0 < r.description.length &&
  !r.ingredients.isEmpty &&
  r.ingredients.all (fun i => 0 < i.length) &&
  !r.instructions.isEmpty &&
  r.instructions.all (fun i => 0 < i.length) &&
  (match r.cookingTime with | none => true | some n => 0 < n) &&
  (match r.servings with | none => true | some n => 0 < n)

/-! `RecipeValidator` (NestJS backend,
`modules/ai/validators/recipe.validator.ts`): preprocessing followed by
`class-validator` checks on `RecipeDto`. -/

/-- Preprocessed recipe data, the object built at the top of
`RecipeValidator.validate`.  Numeric fields: `none` is `undefined`,
`some none` is `NaN`, `some (some n)` is the number `n`. -/
structure ProcessedRecipeData where
  title : JStr
  description : JStr
  ingredients : List JStr
  instructions : List JStr
  cookingTime : Option (Option Int)
  servings : Option (Option Int)

/-- JS `x || ''`: the value if truthy, else the empty string. -/
def jsOrEmpty (v : Option JsonValue) : JsonValue :=
  match v with
  | none => .str []
  | some u => if jsTruthy u then u else .str []

/-- The string-array preprocessing
`data.f.map(item => String(item || '').trim()).filter(item => item.length > 0)`
guarded by `Array.isArray`. -/
def preprocessStrArray (v : Option JsonValue) : List JStr :=
  match v with
  | some (.arr items) =>
    (items.map fun it => jsTrim (jsToString (jsOrEmpty (some it)))).filter
      fun s => 0 < s.length
  | _ => []

/-- The numeric preprocessing `data.f ? Number(data.f) : undefined`. -/
def preprocessNum (v : Option JsonValue) : Option (Option Int) :=
  match v with
  | none => none
  | some u => if jsTruthy u then some (jsNumberOf u) else none

/-- The preprocessing step of `RecipeValidator.validate`. -/
def preprocessRecipeData (data : JsonValue) : ProcessedRecipeData where
  title := jsTrim (jsToString (jsOrEmpty (objGet data (S "title"))))
  description := jsTrim (jsToString (jsOrEmpty (objGet data (S "description"))))
  ingredients := preprocessStrArray (objGet data (S "ingredients"))
  instructions := preprocessStrArray (objGet data (S "instructions"))
  cookingTime := preprocessNum (objGet data (S "cookingTime"))
  servings := preprocessNum (objGet data (S "servings"))

/-- `class-validator` messages for an optional numeric property with
`@IsOptional() @IsNumber() @Min(lo) @Max(hi)` (`none` = skipped;
`NaN` fails all three checks, as in `class-validator`). -/
def numFieldMessages (name : JStr) (lo hi : Int) :
    Option (Option Int) → List JStr
  | none => []
  | some none =>
    [name ++ S " must be a number conforming to the specified constraints",
     name ++ S " must not be less than " ++ intToDecimal lo,
     name ++ S " must not be greater than " ++ intToDecimal hi]
  | some (some n) =>
    (if n < lo then [name ++ S " must not be less than " ++ intToDecimal lo]
     else []) ++
    (if hi < n then [name ++ S " must not be greater than " ++ intToDecimal hi]
     else [])

/-- Per-property violation messages of the `RecipeDto` checks, in
property declaration order.  After preprocessing, `title` and
`description` are strings (so only `@IsNotEmpty` can fail) and the
array fields are arrays of non-empty strings (so only `@ArrayNotEmpty`
can fail). -/
def fieldMessages (p : ProcessedRecipeData) : List (JStr × List JStr) :=
  [(S "title",
    if p.title.isEmpty then [S "title should not be empty"] else []),
   (S "description",
    if p.description.isEmpty then [S "description should not be empty"]
    else []),
   (S "ingredients",
    if p.ingredients.isEmpty then [S "ingredients should not be empty"]
    else []),
   (S "instructions",
    if p.instructions.isEmpty then [S "instructions should not be empty"]
    else []),
   (S "cookingTime", numFieldMessages (S "cookingTime") 1 1440 p.cookingTime),
   (S "servings", numFieldMessages (S "servings") 1 50 p.servings)]

/-- The properties with at least one violation. -/
def violatedFields (p : ProcessedRecipeData) : List (JStr × List JStr) :=
  (fieldMessages p).filter fun f => !f.2.isEmpty

/-- Join strings with a separator. -/
def joinWith (sep : JStr) : List JStr → JStr
  | [] => []
  | [x] => x
  | x :: y :: rest => x ++ sep ++ joinWith sep (y :: rest)

/-- One aggregated line per violated property:
`` `${error.property}: ${constraints.join(', ')}` ``. -/
def renderFieldError (f : JStr × List JStr) : JStr :=
  f.1 ++ S ": " ++ joinWith (S ", ") f.2

/-- The aggregated message of the error thrown by
`RecipeValidator.validate`. -/
def validationFailedMessage (p : ProcessedRecipeData) : JStr :=
  S "Recipe validation failed: " ++
    joinWith (S "; ") ((violatedFields p).map renderFieldError)

/-- On the success path a validated numeric field cannot be `NaN`;
flatten `undefined`/value. -/
def flattenNum : Option (Option Int) → Option Int
  | none => none
  | some none => none
  | some (some n) => some n

/-- `RecipeValidator.validate`: preprocess, run the `RecipeDto` checks,
and either throw an `Error` whose message aggregates every violated
property or return the recipe. -/
def recipeValidate (data : JsonValue) : Except JStr Recipe :=
  let p := preprocessRecipeData data
  if (violatedFields p).isEmpty then
    .ok ⟨p.title, p.description, p.ingredients, p.instructions,
         flattenNum p.cookingTime, flattenNum p.servings⟩
  else
    .error (validationFailedMessage p)

/-! `AiService` (NestJS backend,
`modules/recipes/services/recipe-enhancer.service.ts`, second unit):
response parsing and the retry loop. -/

/-- Codes of `AIGenerationError`. -/
inductive AIErrorCode where
  | PARSING_ERROR
  | VALIDATION_ERROR
  | AI_API_ERROR
deriving DecidableEq, Repr

/-- An `AIGenerationError`: an `Error` carrying a `code`. -/
structure AIError where
  code : AIErrorCode
  message : JStr
deriving DecidableEq, Repr

/-- Index of the first character satisfying `p`. -/
def findFirstIdx (p : Char → Bool) : JStr → Option Nat
  | [] => none
  | c :: rest =>
    if p c then some 0 else (findFirstIdx p rest).map (· + 1)

/-- Index of the last character satisfying `p`. -/
def findLastIdx (p : Char → Bool) (cs : JStr) : Option Nat :=
  (findFirstIdx p cs.reverse).map fun i => cs.length - 1 - i

/-- Model of `response.match(/\x7b[\s\S]*\x7d/)`: the greedy regex
matches from the first left brace to the last right brace, when a right
brace occurs after the first left brace; otherwise there is no match. -/
def matchBraceSpan (cs : JStr) : Option JStr :=
  match findFirstIdx (· = openBrace) cs, findLastIdx (· = closeBrace) cs with
  | some i, some j => if i < j then some ((cs.drop i).take (j - i + 1)) else none
  | _, _ => none

/-- The body of `AiService.parseAIResponse` after span extraction:
`JSON.parse` the extracted span and validate it with
`RecipeValidator.validate`; each failure is rethrown with code
`PARSING_ERROR` and a wrapped message. -/
def parseSpanAndValidate (jsonString : JStr) : Except AIError Recipe :=
  match jsonParse jsonString with
  | none =>
    .error ⟨.PARSING_ERROR,
      S "Failed to parse AI response: Unexpected token in JSON"⟩
  | some parsed =>
    match recipeValidate parsed with
    | .error m =>
      .error ⟨.PARSING_ERROR, S "Failed to parse AI response: " ++ m⟩
    | .ok recipe => .ok recipe

/-- `AiService.parseAIResponse`: extract the greedy brace span and run
`parseSpanAndValidate` on it; with no span, fail with `PARSING_ERROR`. -/
def parseAIResponse (response : JStr) : Except AIError Recipe :=
  match matchBraceSpan response with
  | none =>
    .error ⟨.PARSING_ERROR,
      S "Failed to parse AI response: No valid JSON found in AI response"⟩
  | some jsonString => parseSpanAndValidate jsonString

/-- The error code of a `parseAIResponse` outcome, if any. -/
def errCodeOf (r : Except AIError Recipe) : Option AIErrorCode :=
  match r with
  | .error e => some e.code
  | .ok _ => none

/-! The retry loop `AiService.generateRecipeWithRetry`.  An external
call's outcome at each attempt is a stub `Nat → Except ε ρ` (attempt
numbers start at 1); the run records the result, the number of attempts
made, and the arguments passed to `delay` (milliseconds). -/

/-- Final outcome error: either the underlying error of the last
attempt propagated as-is, or the `'All retry attempts failed'` error of
the line after the loop. -/
inductive RetryFinal (ε : Type) where
  | underlying (e : ε)
  | exhausted
deriving DecidableEq, Repr

/-- Observable trace of one `generateRecipeWithRetry` run. -/
structure RetryRun (ε ρ : Type) where
  result : Except (RetryFinal ε) ρ
  attempts : Nat
  delays : List Nat

/-- The `for (let attempt = 1; attempt <= maxRetries; attempt++)` loop:
`fuel` counts the remaining loop iterations
(`maxRetries - attempt + 1`); on failure before the last attempt the
loop sleeps `Math.pow(2, attempt) * 1000` milliseconds. -/
def retryGo (stub : Nat → Except ε ρ) (maxRetries : Nat) :
    Nat → Nat → RetryRun ε ρ
  | _, 0 => ⟨.error .exhausted, 0, []⟩
  | attempt, fuel + 1 =>
    match stub attempt with
    | .ok r => ⟨.ok r, 1, []⟩
    | .error e =>
      if attempt = maxRetries then ⟨.error (.underlying e), 1, []⟩
      else
        let rest := retryGo stub maxRetries (attempt + 1) fuel
        ⟨rest.result, rest.attempts + 1, 2 ^ attempt * 1000 :: rest.delays⟩

/-- `AiService.generateRecipeWithRetry stub maxRetries` (the service
always calls it with `maxRetries = 3`). -/
def generateRecipeWithRetry (stub : Nat → Except ε ρ) (maxRetries : Nat) :
    RetryRun ε ρ :=
  retryGo stub maxRetries 1 maxRetries

/-! `ParseIngredientsPipe` (NestJS backend,
`common/filters/ai-exception.filter.ts`, second unit). -/

/-- The raw `ingredients` field handed to
`ParseIngredientsPipe.parseIngredients`: a JS array, a string, or any
other value. -/
inductive RawIngredients where
  | jsArr (items : List JsonValue)
  | jsStr (s : JStr)
  | jsOther (v : JsonValue)

/-- Split a string on commas (JS `split(',')`). -/
def splitOnComma (cs : JStr) : List JStr :=
  match cs with
  | [] => [[]]
  | c :: rest =>
    match splitOnComma rest with
    | [] => [[]]
    | piece :: pieces =>
      if c = ',' then [] :: piece :: pieces else (c :: piece) :: pieces

/-- The comma-separated fallback branch:
`split(',').map(trim).filter(nonempty)`. -/
def commaSplitItems (s : JStr) : List JStr :=
  ((splitOnComma s).map jsTrim).filter fun i => 0 < i.length

/-- The branch dispatch of `parseIngredients` producing
`parsedIngredients`.  A string that looks bracketed is `JSON.parse`d;
a parse failure, or a parsed value that is not an array (the internally
thrown `Error`), falls back to comma separation. -/
def parsedItems : RawIngredients → List JStr
  | .jsArr items => items.map fun it => jsTrim (jsToString it)
  | .jsStr s =>
    if s.head? = some '[' && s.getLast? = some ']' then
      match jsonParse s with
      | some (.arr items) => items.map fun it => jsTrim (jsToString it)
      | _ => commaSplitItems s
    else commaSplitItems s
  | .jsOther v => [jsTrim (jsToString v)].filter fun i => 0 < i.length

/-- The non-empty items that reach the dedup set. -/
def validItems (raw : RawIngredients) : List JStr :=
  (parsedItems raw).filter fun i => 0 < i.length

/-- A thrown `BadRequestException` (HTTP 400, surfaced as
`INVALID_REQUEST`). -/
structure PipeBadRequest where
  message : JStr
deriving DecidableEq, Repr

/-- `ParseIngredientsPipe.parseIngredients`: branch, trim, drop empty
entries, dedup with `new Set`, and enforce the 1..50 bound on the
deduplicated result. -/
def parseIngredients (raw : RawIngredients) :
    Except PipeBadRequest (List JStr) :=
  let uniqueIngredients := dedupKeepFirst (validItems raw)
  if uniqueIngredients.length = 0 then
    .error ⟨S "少なくとも1つの食材を指定してください"⟩
  else if 50 < uniqueIngredients.length then
    .error ⟨S "食材は最大50個まで指定できます"⟩
  else .ok uniqueIngredients

/-! The Hono backend: `schemas/recipe.ts` (zod), `services/ai/openai.ts`
and `routes/recipes.ts`. -/

/-- A zod string of minimum length 1. -/
def zodNonEmptyStr : JsonValue → Option JStr
  | .str s => if 0 < s.length then some s else none
  | _ => none

/-- A zod `array(string().min(1)).min(1)`. -/
def zodNonEmptyStrArray : JsonValue → Option (List JStr)
  | .arr items =>
    let parsed := items.map zodNonEmptyStr
    if parsed.all (·.isSome) && 0 < items.length then
      some (parsed.filterMap id)
    else none
  | _ => none

/-- A zod `number().int().positive().optional()` (absent is allowed,
`null` is not; on the integral value model `int()` always holds). -/
def zodOptPosInt : Option JsonValue → Option (Option Int)
  | none => some none
  | some (.num n) => if 0 < n then some (some n) else none
  | some _ => none

/-- `recipeSchema.parse` of `schemas/recipe.ts` (success as `some`,
a thrown `ZodError` as `none`). -/
def recipeSchemaParse (v : JsonValue) : Option Recipe :=
  match v with
  | .obj _ => do
    let title ← (objGet v (S "title")).bind zodNonEmptyStr
    let description ← (objGet v (S "description")).bind zodNonEmptyStr
    let ingredients ← (objGet v (S "ingredients")).bind zodNonEmptyStrArray
    let instructions ← (objGet v (S "instructions")).bind zodNonEmptyStrArray
    let cookingTime ← zodOptPosInt (objGet v (S "cookingTime"))
    let servings ← zodOptPosInt (objGet v (S "servings"))
    some ⟨title, description, ingredients, instructions, cookingTime, servings⟩
  | _ => none

/-- The JSON recovery of `OpenAIProvider.generateRecipe`: `JSON.parse`
the whole content, and on failure parse the greedy brace span if there
is one. -/
def openaiParseContent (content : JStr) : Option JsonValue :=
  match jsonParse content with
  | some v => some v
  | none =>
    match matchBraceSpan content with
    | some span => jsonParse span
    | none => none

/-- Parse-and-validate portion of `OpenAIProvider.generateRecipe`
(lines 80-101): parsed content validated with `recipeSchema`. -/
def openaiGenerateFromContent (content : JStr) : Option Recipe :=
  (openaiParseContent content).bind recipeSchemaParse

/-- The `enhanced` flags of `enhanceRecipeQuality`. -/
structure QualityEnhanced where
  titleChanged : Bool
  ingredientsReorganized : Bool
  instructionsReformatted : Bool
deriving DecidableEq, Repr

/-- The `qualityInfo` of `enhanceRecipeQuality`. -/
structure QualityInfo where
  hasIssues : Bool
  issues : List JStr
  enhanced : QualityEnhanced
deriving DecidableEq, Repr

/-- `enhanceRecipeQuality` of `routes/recipes.ts`: exact-match `Set`
dedup of the ingredients and removal of instructions whose trimmed
length is at most 3; no renumbering and no other rewriting. -/
def enhanceRecipeQuality (r : Recipe) : Recipe × QualityInfo :=
  let uniqueIngredients := dedupKeepFirst r.ingredients
  let ingredientsReorganized :=
    uniqueIngredients.length ≠ r.ingredients.length
  let issues1 : List JStr :=
    if ingredientsReorganized then [S "重複した材料を除去しました"] else []
  let filteredInstructions :=
    r.instructions.filter fun inst => 3 < (jsTrim inst).length
  let instructionsReformatted :=
    filteredInstructions.length ≠ r.instructions.length
  let issues2 : List JStr :=
    if instructionsReformatted then [S "無効な手順を除去しました"] else []
  let issues := issues1 ++ issues2
  (⟨r.title, r.description, uniqueIngredients, filteredInstructions,
    r.cookingTime, r.servings⟩,
   ⟨!issues.isEmpty, issues,
    ⟨false, ingredientsReorganized, instructionsReformatted⟩⟩)

/-- The Hono `POST /api/recipes/generate` success path after a model
response `content`: parse, validate, enhance. -/
def honoPipeline (content : JStr) : Option (Recipe × QualityInfo) :=
  (openaiGenerateFromContent content).map enhanceRecipeQuality

/-! Error code to HTTP status mapping. -/

/-- The `ErrorCode` union of `utils/response.ts`. -/
inductive ErrorCode where
  | INVALID_REQUEST
  | RATE_LIMIT_EXCEEDED
  | AI_SERVICE_UNAVAILABLE
  | REQUEST_TIMEOUT
  | AI_RESPONSE_ERROR
  | INTERNAL_SERVER_ERROR
deriving DecidableEq, Repr

/-- Specification-side mapping: the status the claim says each code is
returned with. -/
def claimedStatus : ErrorCode → Nat
  | .INVALID_REQUEST => 400
  | .RATE_LIMIT_EXCEEDED => 429
  | .AI_SERVICE_UNAVAILABLE => 502
  | .REQUEST_TIMEOUT => 504
  | .AI_RESPONSE_ERROR => 500
  | .INTERNAL_SERVER_ERROR => 500

/-- The `aiError` catch of the Hono generate route (lines 186-211):
code and status chosen from the thrown error's message. -/
def honoAiErrorDispatch (errorMessage : JStr) : ErrorCode × Nat :=
  if errorMessage = S "RATE_LIMIT_EXCEEDED" then (.RATE_LIMIT_EXCEEDED, 429)
  else if errorMessage = S "REQUEST_TIMEOUT" then (.REQUEST_TIMEOUT, 504)
  else if errorMessage = S "AI_SERVICE_UNAVAILABLE" then
    (.AI_SERVICE_UNAVAILABLE, 502)
  else (.AI_RESPONSE_ERROR, 500)

/-- Every `createErrorResponse` call site of the Hono generate route
outside the `aiError` catch, with the literal code and status passed
(missing `ingredients` field, bad JSON, image validation, image count,
zod validation, missing API key, outer catch-all). -/
def honoDirectErrorSites : List (ErrorCode × Nat) :=
  [(.INVALID_REQUEST, 400), (.INVALID_REQUEST, 400), (.INVALID_REQUEST, 400),
   (.INVALID_REQUEST, 400), (.INVALID_REQUEST, 400),
   (.INTERNAL_SERVER_ERROR, 500), (.INTERNAL_SERVER_ERROR, 500)]

/-! `AiExceptionFilter.buildErrorResponse` (NestJS backend). -/

/-- The exception shapes distinguished by the filter. -/
inductive NestException where
  | aiGen (code : AIErrorCode) (msg : JStr)
  | http (statusCode : Nat) (msg : JStr)
  | err (msg : JStr)
  | other

/-- `AiExceptionFilter.getErrorCodeFromStatus`. -/
def getErrorCodeFromStatus (status : Nat) : JStr :=
  if status = 400 then S "BAD_REQUEST"
  else if status = 401 then S "UNAUTHORIZED"
  else if status = 403 then S "FORBIDDEN"
  else if status = 404 then S "NOT_FOUND"
  else if status = 408 then S "REQUEST_TIMEOUT"
  else if status = 429 then S "TOO_MANY_REQUESTS"
  else if status = 500 then S "INTERNAL_SERVER_ERROR"
  else if status = 502 then S "BAD_GATEWAY"
  else if status = 503 then S "SERVICE_UNAVAILABLE"
  else S "HTTP_ERROR"

/-- `AiExceptionFilter.buildErrorResponse`, returning
`(statusCode, code)`.  `HttpStatus.REQUEST_TIMEOUT` is 408 and
`HttpStatus.TOO_MANY_REQUESTS` is 429 in NestJS. -/
def buildErrorResponse : NestException → Nat × JStr
  | .aiGen .VALIDATION_ERROR _ => (400, S "INVALID_REQUEST")
  | .aiGen .PARSING_ERROR _ => (500, S "AI_RESPONSE_ERROR")
  | .aiGen .AI_API_ERROR _ => (502, S "AI_SERVICE_UNAVAILABLE")
  | .http status _ => (status, getErrorCodeFromStatus status)
  | .err msg =>
    if containsSub (S "API key") msg then (500, S "CONFIGURATION_ERROR")
    else if containsSub (S "timeout") msg || containsSub (S "TIMEOUT") msg then
      (408, S "REQUEST_TIMEOUT")
    else if containsSub (S "rate limit") msg || containsSub (S "quota") msg then
      (429, S "RATE_LIMIT_EXCEEDED")
    else (500, S "INTERNAL_SERVER_ERROR")
  | .other => (500, S "INTERNAL_SERVER_ERROR")

/-! Concrete inputs used to settle the claims. -/

/-- A stub external call that fails at every attempt. -/
def constFail : Nat → Except Unit Unit := fun _ => .error ()

/-- A second always-failing stub. -/
def alwaysFailStub : Nat → Except Unit Unit := fun _ => .error ()

/-- A stub external call that fails twice and then succeeds. -/
def failTwiceThenOk : Nat → Except Unit Nat :=
  fun n => if n ≤ 2 then .error () else .ok 42

/-- A syntactically valid recipe whose title has whitespace before its
trailing punctuation. -/
def rBadTitle : Recipe :=
  ⟨S "ab .", S "Tasty.", [S "onion"], [S "1. cut things"], none, none⟩

/-- A recipe the enhancer leaves unchanged. -/
def rClean : Recipe :=
  ⟨S "Stir-fry", S "Tasty.", [S "Chicken thigh meat"],
   [S "1. Cut the chicken."], some 30, some 2⟩

/-- The stubbed model response of the end-to-end scenario. -/
def stubModelResponse : JStr :=
  S "\x7b\"title\":\"Stir-fry\",\"description\":\"Tasty\",\"ingredients\":[\"onion\",\"onion\",\"chicken thigh\"],\"instructions\":[\"1. cut\",\"ok\"]\x7d"

/-! Supporting lemmas. -/

/-- Dropping an already-dropped predicate run is a no-op. -/
lemma dropWhile_idem (p : Char → Bool) :
    ∀ l : JStr, (l.dropWhile p).dropWhile p = l.dropWhile p := by
  intro l
  induction l with
  | nil => rfl
  | cons a l ih =>
    by_cases h : p a
    · simpa [List.dropWhile_cons, h] using ih
    · simp [List.dropWhile_cons, h]

/-- The head surviving a `dropWhile` fails the predicate. -/
lemma head?_dropWhile (p : Char → Bool) :
    ∀ l : JStr, ∀ c, (l.dropWhile p).head? = some c → p c = false := by
  intro l
  induction l with
  | nil => intro c hc; simp at hc
  | cons a l ih =>
    intro c hc
    by_cases h : p a
    · exact ih c (by simpa [List.dropWhile_cons, h] using hc)
    · simp [List.dropWhile_cons, h] at hc
      subst hc
      simpa using h

/-- `dropWhile` is the identity when the head already fails the
predicate. -/
lemma dropWhile_eq_self_of_head (p : Char → Bool) (l : JStr)
    (h : ∀ c, l.head? = some c → p c = false) : l.dropWhile p = l := by
  cases l with
  | nil => rfl
  | cons a l => simp [List.dropWhile_cons, h a rfl]

/-- The last element of a list is unchanged by prepending. -/
lemma getLast?_append_ne (t l : JStr) (h : l ≠ []) :
    (t ++ l).getLast? = l.getLast? := by
  induction t with
  | nil => rfl
  | cons a t ih =>
    cases ht : t ++ l with
    | nil => exact absurd (List.append_eq_nil.mp ht).2 h
    | cons b l2 =>
      rw [List.cons_append, ht, List.getLast?_cons_cons, ← ht, ih]

/-- `dropWhile` returns a suffix. -/
lemma dropWhile_suffix_ex (p : Char → Bool) :
    ∀ l : JStr, ∃ t, t ++ l.dropWhile p = l := by
  intro l
  induction l with
  | nil => exact ⟨[], rfl⟩
  | cons a l ih =>
    by_cases h : p a
    · obtain ⟨t, ht⟩ := ih
      exact ⟨a :: t, by simp [List.dropWhile_cons, h, ht]⟩
    · exact ⟨[], by simp [List.dropWhile_cons, h]⟩

/-- A non-empty `dropWhile` keeps the last element. -/
lemma getLast?_dropWhile (p : Char → Bool) (l : JStr)
    (h : l.dropWhile p ≠ []) : (l.dropWhile p).getLast? = l.getLast? := by
  obtain ⟨t, ht⟩ := dropWhile_suffix_ex p l
  conv_rhs => rw [← ht]
  rw [getLast?_append_ne _ _ h]

/-- JS `trim` is idempotent. -/
lemma jsTrim_idem (cs : JStr) : jsTrim (jsTrim cs) = jsTrim cs := by
  unfold jsTrim
  set A := cs.dropWhile jsWs with hA
  set B := A.reverse.dropWhile jsWs with hB
  have hBrev : B.reverse.dropWhile jsWs = B.reverse := by
    apply dropWhile_eq_self_of_head
    intro c hc
    have hBne : B ≠ [] := by
      intro hnil
      rw [hnil] at hc
      simp at hc
    have h1 : B.reverse.head? = B.getLast? := by
      rw [List.head?_reverse]
    have h2 : B.getLast? = A.reverse.getLast? := by
      rw [hB]; exact getLast?_dropWhile _ _ (by rw [← hB]; exact hBne)
    have h3 : A.reverse.getLast? = A.head? := by
      rw [← List.head?_reverse, List.reverse_reverse]
    have : A.head? = some c := by rw [← h3, ← h2, ← h1, hc]
    exact head?_dropWhile jsWs cs c (by rw [← hA]; exact this)
  rw [hBrev, List.reverse_reverse]
  rw [hB, dropWhile_idem]

/-- Every element of the dedup output occurs in the input. -/
lemma dedupAux_subset :
    ∀ (l seen : List JStr) (a : JStr), a ∈ dedupAux seen l → a ∈ l := by
  intro l
  induction l with
  | nil => intro seen a ha; simp [dedupAux] at ha
  | cons x xs ih =>
    intro seen a ha
    by_cases h : x ∈ seen
    · simp [dedupAux, h] at ha
      exact List.mem_cons_of_mem _ (ih seen a ha)
    · simp [dedupAux, h] at ha
      rcases ha with ha | ha
      · exact ha ▸ List.mem_cons_self _ _
      · exact List.mem_cons_of_mem _ (ih _ a ha)

/-- Nothing already seen is emitted by the dedup. -/
lemma dedupAux_not_seen :
    ∀ (l seen : List JStr) (a : JStr), a ∈ dedupAux seen l → a ∉ seen := by
  intro l
  induction l with
  | nil => intro seen a ha; simp [dedupAux] at ha
  | cons x xs ih =>
    intro seen a ha
    by_cases h : x ∈ seen
    · simp [dedupAux, h] at ha
      exact ih seen a ha
    · simp [dedupAux, h] at ha
      rcases ha with ha | ha
      · exact ha ▸ h
      · intro hm
        exact ih _ a ha (by simp [hm])

/-- The dedup output has no duplicates. -/
lemma dedupAux_nodup : ∀ (l seen : List JStr), (dedupAux seen l).Nodup := by
  intro l
  induction l with
  | nil => intro seen; simp [dedupAux]
  | cons x xs ih =>
    intro seen
    by_cases h : x ∈ seen
    · simpa [dedupAux, h] using ih seen
    · simp only [dedupAux, h, if_neg, ite_false]
      refine List.nodup_cons.mpr ⟨?_, ih _⟩
      intro hx
      exact dedupAux_not_seen xs _ x hx (by simp)

/-- Every input element appears in the output or was already seen. -/
lemma dedupAux_mem :
    ∀ (l seen : List JStr) (a : JStr), a ∈ l →
      a ∈ dedupAux seen l ∨ a ∈ seen := by
  intro l
  induction l with
  | nil => intro seen a ha; simp at ha
  | cons x xs ih =>
    intro seen a ha
    by_cases h : x ∈ seen
    · rcases List.mem_cons.mp ha with rfl | ha
      · exact Or.inr h
      · simpa [dedupAux, h] using ih seen a ha
    · rcases List.mem_cons.mp ha with rfl | ha
      · simp [dedupAux, h]
      · rcases ih (seen ++ [x]) a ha with hin | hin
        · exact Or.inl (by simp [dedupAux, h, hin])
        · rcases List.mem_append.mp hin with hin | hin
          · exact Or.inr hin
          · simp at hin
            exact Or.inl (by simp [dedupAux, h, hin])

/-- The left fold of `firstSeenDedup` agrees with `dedupAux`. -/
lemma foldl_dedupAux :
    ∀ (l acc : List JStr),
      l.foldl (fun acc x => if x ∈ acc then acc else acc ++ [x]) acc
        = acc ++ dedupAux acc l := by
  intro l
  induction l with
  | nil => intro acc; simp [dedupAux]
  | cons x xs ih =>
    intro acc
    by_cases h : x ∈ acc
    · simp [List.foldl_cons, h, dedupAux, ih]
    · simp [List.foldl_cons, h, dedupAux, ih (acc ++ [x])]

/-- The implementation dedup (`new Set` insertion order) equals the
specification-side first-seen fold. -/
lemma dedupKeepFirst_eq_firstSeen (l : List JStr) :
    dedupKeepFirst l = firstSeenDedup l := by
  unfold dedupKeepFirst firstSeenDedup
  rw [foldl_dedupAux l []]
  rfl

/-- Every comma-split item is trim-fixed. -/
lemma commaSplitItems_trimmed (s : JStr) :
    ∀ x ∈ commaSplitItems s, jsTrim x = x := by
  intro x hx
  unfold commaSplitItems at hx
  obtain ⟨hx, -⟩ := List.mem_filter.mp hx
  obtain ⟨piece, -, rfl⟩ := List.mem_map.mp hx
  exact jsTrim_idem piece

/-- Every item produced by the branch dispatch of the ingredients pipe
is trim-fixed. -/
lemma parsedItems_trimmed (raw : RawIngredients) :
    ∀ x ∈ parsedItems raw, jsTrim x = x := by
  intro x hx
  cases raw with
  | jsArr items =>
    obtain ⟨it, -, rfl⟩ := List.mem_map.mp hx
    exact jsTrim_idem _
  | jsStr s =>
    simp only [parsedItems] at hx
    split at hx
    · split at hx
      · obtain ⟨it, -, rfl⟩ := List.mem_map.mp hx
        exact jsTrim_idem _
      · exact commaSplitItems_trimmed s x hx
    · exact commaSplitItems_trimmed s x hx
  | jsOther v =>
    rcases List.mem_filter.mp hx with ⟨hx, -⟩
    rcases List.mem_singleton.mp hx with rfl
    exact jsTrim_idem _

/-- A contiguous-substring predicate on the JS string model. -/
def substringOf (x m : JStr) : Prop := ∃ s t, s ++ x ++ t = m

/-- A member of a joined list is a substring of the join. -/
lemma substringOf_joinWith (sep : JStr) :
    ∀ (l : List JStr) (x : JStr), x ∈ l → substringOf x (joinWith sep l) := by
  intro l
  induction l with
  | nil => intro x hx; simp at hx
  | cons y rest ih =>
    intro x hx
    cases rest with
    | nil =>
      rcases List.mem_singleton.mp hx with rfl
      exact ⟨[], [], by simp [joinWith]⟩
    | cons z rest2 =>
      rcases List.mem_cons.mp hx with rfl | hx
      · exact ⟨[], sep ++ joinWith sep (z :: rest2), by simp [joinWith]⟩
      · obtain ⟨s, t, hst⟩ := ih x hx
        exact ⟨y ++ sep ++ s, t, by
          simp only [joinWith, List.append_assoc, hst]⟩

/-- A substring of `m` is a substring of `pre ++ m`. -/
lemma substringOf_append_left (pre x m : JStr) (h : substringOf x m) :
    substringOf x (pre ++ m) := by
  obtain ⟨s, t, hst⟩ := h
  exact ⟨pre ++ s, t, by simp [List.append_assoc, hst]⟩

/-- The ingredients pipe, written as one conditional. -/
lemma parseIngredients_eq (raw : RawIngredients) :
    parseIngredients raw =
      if (dedupKeepFirst (validItems raw)).length = 0 then
        .error ⟨S "少なくとも1つの食材を指定してください"⟩
      else if 50 < (dedupKeepFirst (validItems raw)).length then
        .error ⟨S "食材は最大50個まで指定できます"⟩
      else .ok (dedupKeepFirst (validItems raw)) := rfl

/-- Run of the retry loop when the first attempt succeeds. -/
lemma retryRun_okFirst {ε ρ : Type} (stub : Nat → Except ε ρ) (r : ρ)
    (h1 : stub 1 = .ok r) :
    generateRecipeWithRetry stub 3 = ⟨.ok r, 1, []⟩ := by
  simp [generateRecipeWithRetry, retryGo, h1]

/-- Run of the retry loop when only the second attempt succeeds. -/
lemma retryRun_okSecond {ε ρ : Type} (stub : Nat → Except ε ρ) (e1 : ε)
    (r : ρ) (h1 : stub 1 = .error e1) (h2 : stub 2 = .ok r) :
    generateRecipeWithRetry stub 3 = ⟨.ok r, 2, [2000]⟩ := by
  simp [generateRecipeWithRetry, retryGo, h1, h2]

/-- Run of the retry loop when only the third attempt succeeds. -/
lemma retryRun_okThird {ε ρ : Type} (stub : Nat → Except ε ρ) (e1 e2 : ε)
    (r : ρ) (h1 : stub 1 = .error e1) (h2 : stub 2 = .error e2)
    (h3 : stub 3 = .ok r) :
    generateRecipeWithRetry stub 3 = ⟨.ok r, 3, [2000, 4000]⟩ := by
  simp [generateRecipeWithRetry, retryGo, h1, h2, h3]

/-- Run of the retry loop when every attempt fails. -/
lemma retryRun_allFail {ε ρ : Type} (stub : Nat → Except ε ρ) (e1 e2 e3 : ε)
    (h1 : stub 1 = .error e1) (h2 : stub 2 = .error e2)
    (h3 : stub 3 = .error e3) :
    generateRecipeWithRetry stub 3
      = ⟨.error (.underlying e3), 3, [2000, 4000]⟩ := by
  simp [generateRecipeWithRetry, retryGo, h1, h2, h3]

/-! Claim theorems. -/

/-- Claim C1, counterexample.  The deduplication of
`ParseIngredientsPipe.parseIngredients` is `new Set`, i.e. exact-match:
the valid input `["Onion", "onion"]` (two distinct non-empty entries)
is returned with both entries, which are case-insensitive duplicates of
one another — contradicting the claim that the output has no
case-insensitive duplicates. -/
theorem parseIngredients_caseSensitive_cex :
    parseIngredients (.jsArr [.str (S "Onion"), .str (S "onion")])
      = .ok [S "Onion", S "onion"]
    ∧ S "Onion" ≠ S "onion"
    ∧ lowerJStr (S "Onion") = lowerJStr (S "onion") :=
  ⟨rfl, by decide, by decide⟩

/-- Claim C1, amended.  For every raw ingredient input,
`ParseIngredientsPipe.parseIngredients` on success returns the
exact-match (case-sensitive) deduplication of the trimmed non-empty
items, keeping first occurrences in first-seen order (`firstSeenDedup`),
with no exact duplicates, every entry trimmed, and between 1 and 50
entries; it fails (`BadRequestException`, surfaced as
`INVALID_REQUEST`) exactly when the deduplicated result is empty or has
more than 50 entries. -/
theorem parseIngredients_spec (raw : RawIngredients) :
    (∀ out, parseIngredients raw = .ok out →
        out = firstSeenDedup (validItems raw)
        ∧ out.Nodup
        ∧ (∀ s ∈ out, jsTrim s = s)
        ∧ 1 ≤ out.length ∧ out.length ≤ 50)
    ∧ ((∃ e, parseIngredients raw = .error e) ↔
        dedupKeepFirst (validItems raw) = []
        ∨ 50 < (dedupKeepFirst (validItems raw)).length) := by
  constructor
  · intro out hout
    rw [parseIngredients_eq] at hout
    by_cases h0 : (dedupKeepFirst (validItems raw)).length = 0
    · rw [if_pos h0] at hout
      exact absurd hout (by simp)
    · rw [if_neg h0] at hout
      by_cases h50 : 50 < (dedupKeepFirst (validItems raw)).length
      · rw [if_pos h50] at hout
        exact absurd hout (by simp)
      · rw [if_neg h50] at hout
        have hu := Except.ok.inj hout
        subst hu
        refine ⟨(dedupKeepFirst_eq_firstSeen _), dedupAux_nodup _ _, ?_, ?_, ?_⟩
        · intro s hs
          have hmem : s ∈ validItems raw := dedupAux_subset _ _ _ hs
          have : s ∈ parsedItems raw := (List.mem_filter.mp hmem).1
          exact parsedItems_trimmed raw s this
        · omega
        · omega
  · constructor
    · rintro ⟨e, he⟩
      rw [parseIngredients_eq] at he
      by_cases h0 : (dedupKeepFirst (validItems raw)).length = 0
      · exact Or.inl (List.length_eq_zero.mp h0)
      · rw [if_neg h0] at he
        by_cases h50 : 50 < (dedupKeepFirst (validItems raw)).length
        · exact Or.inr h50
        · rw [if_neg h50] at he
          exact absurd he (by simp)
    · intro h
      rw [parseIngredients_eq]
      rcases h with h | h
      · rw [if_pos (by simp [h])]
        exact ⟨_, rfl⟩
      · by_cases h0 : (dedupKeepFirst (validItems raw)).length = 0
        · rw [if_pos h0]
          exact ⟨_, rfl⟩
        · rw [if_neg h0, if_pos h]
          exact ⟨_, rfl⟩

/-- Claim C1, witness: a comma-separated input with a duplicate and
padding whitespace. -/
theorem parseIngredients_spec_witness :
    parseIngredients (.jsStr (S "onion, Chicken ,onion"))
      = .ok [S "onion", S "Chicken"]
    ∧ ([S "onion", S "Chicken"]
        = firstSeenDedup (validItems (.jsStr (S "onion, Chicken ,onion")))
      ∧ ([S "onion", S "Chicken"] : List JStr).Nodup
      ∧ (∀ s ∈ ([S "onion", S "Chicken"] : List JStr), jsTrim s = s)
      ∧ 1 ≤ ([S "onion", S "Chicken"] : List JStr).length
      ∧ ([S "onion", S "Chicken"] : List JStr).length ≤ 50) :=
  ⟨rfl, (parseIngredients_spec _).1 [S "onion", S "Chicken"] rfl⟩

/-- Claim C2.  `AiService.generateRecipeWithRetry` with its fixed bound
of 3 makes at most 3 attempts; a successful attempt returns its recipe
immediately with no further attempts; when every attempt fails, exactly
3 attempts occur and the third attempt's error is propagated as-is
(`RetryFinal.underlying e3`), never the loop's trailing
`'All retry attempts failed'` error (`RetryFinal.exhausted`). -/
theorem generateRecipeWithRetry_spec {ε ρ : Type} (stub : Nat → Except ε ρ) :
    (generateRecipeWithRetry stub 3).attempts ≤ 3
    ∧ (generateRecipeWithRetry stub 3).result
        ≠ .error (RetryFinal.exhausted)
    ∧ (∀ r, stub 1 = .ok r →
        generateRecipeWithRetry stub 3 = ⟨.ok r, 1, []⟩)
    ∧ (∀ e1 r, stub 1 = .error e1 → stub 2 = .ok r →
        generateRecipeWithRetry stub 3 = ⟨.ok r, 2, [2000]⟩)
    ∧ (∀ e1 e2 r, stub 1 = .error e1 → stub 2 = .error e2 →
        stub 3 = .ok r →
        generateRecipeWithRetry stub 3 = ⟨.ok r, 3, [2000, 4000]⟩)
    ∧ (∀ e1 e2 e3, stub 1 = .error e1 → stub 2 = .error e2 →
        stub 3 = .error e3 →
        generateRecipeWithRetry stub 3
          = ⟨.error (.underlying e3), 3, [2000, 4000]⟩) := by
  have hcase :
      (generateRecipeWithRetry stub 3).attempts ≤ 3
      ∧ (generateRecipeWithRetry stub 3).result
          ≠ .error (RetryFinal.exhausted) := by
    rcases h1 : stub 1 with e1 | r1
    · rcases h2 : stub 2 with e2 | r2
      · rcases h3 : stub 3 with e3 | r3
        · rw [retryRun_allFail stub e1 e2 e3 h1 h2 h3]
          exact ⟨by norm_num, by simp⟩
        · rw [retryRun_okThird stub e1 e2 r3 h1 h2 h3]
          exact ⟨by norm_num, by simp⟩
      · rw [retryRun_okSecond stub e1 r2 h1 h2]
        exact ⟨by norm_num, by simp⟩
    · rw [retryRun_okFirst stub r1 h1]
      exact ⟨by norm_num, by simp⟩
  exact ⟨hcase.1, hcase.2,
    fun r h1 => retryRun_okFirst stub r h1,
    fun e1 r h1 h2 => retryRun_okSecond stub e1 r h1 h2,
    fun e1 e2 r h1 h2 h3 => retryRun_okThird stub e1 e2 r h1 h2 h3,
    fun e1 e2 e3 h1 h2 h3 => retryRun_allFail stub e1 e2 e3 h1 h2 h3⟩

/-- Claim C2, witness: a stub failing twice and succeeding on the third
attempt. -/
theorem generateRecipeWithRetry_spec_witness :
    generateRecipeWithRetry failTwiceThenOk 3
      = ⟨.ok 42, 3, [2000, 4000]⟩ :=
  (generateRecipeWithRetry_spec failTwiceThenOk).2.2.2.2.1 () () 42 rfl rfl rfl

/-- Claim C3, counterexample.  The loop sleeps
`Math.pow(2, attempt) * 1000` milliseconds with `attempt` starting at
1, so an all-failing run passes 2000 and 4000 to `delay` — 2 and 4
seconds — not the 1 and 2 seconds the claim states. -/
theorem retryBackoffDelays_cex :
    (generateRecipeWithRetry constFail 3).delays = [2000, 4000]
    ∧ (generateRecipeWithRetry constFail 3).delays ≠ [1000, 2000] :=
  ⟨rfl, by decide⟩

/-- Claim C3, amended.  Between consecutive failed attempts the loop
waits `2 ^ attempt` seconds with the attempt counter starting at 1:
2 seconds after the first failed attempt and 4 seconds after the
second, and no wait after the final attempt (the delay argument list of
an all-failing run is exactly `[2 ^ 1 * 1000, 2 ^ 2 * 1000]`
milliseconds). -/
theorem retryBackoffDelays_spec {ε ρ : Type} (stub : Nat → Except ε ρ) :
    (∀ e1 e2 e3, stub 1 = .error e1 → stub 2 = .error e2 →
        stub 3 = .error e3 →
        (generateRecipeWithRetry stub 3).delays
          = [2 ^ 1 * 1000, 2 ^ 2 * 1000])
    ∧ (∀ r, stub 1 = .ok r → (generateRecipeWithRetry stub 3).delays = [])
    ∧ (∀ e1 r, stub 1 = .error e1 → stub 2 = .ok r →
        (generateRecipeWithRetry stub 3).delays = [2 ^ 1 * 1000])
    ∧ (∀ e1 e2 r, stub 1 = .error e1 → stub 2 = .error e2 →
        stub 3 = .ok r →
        (generateRecipeWithRetry stub 3).delays
          = [2 ^ 1 * 1000, 2 ^ 2 * 1000]) := by
  refine ⟨?_, ?_, ?_, ?_⟩
  · intro e1 e2 e3 h1 h2 h3
    rw [retryRun_allFail stub e1 e2 e3 h1 h2 h3]
    norm_num
  · intro r h1
    rw [retryRun_okFirst stub r h1]
  · intro e1 r h1 h2
    rw [retryRun_okSecond stub e1 r h1 h2]
    norm_num
  · intro e1 e2 r h1 h2 h3
    rw [retryRun_okThird stub e1 e2 r h1 h2 h3]
    norm_num

/-- Claim C3, witness: an all-failing stub. -/
theorem retryBackoffDelays_spec_witness :
    (generateRecipeWithRetry alwaysFailStub 3).delays
      = [2 ^ 1 * 1000, 2 ^ 2 * 1000] :=
  (retryBackoffDelays_spec alwaysFailStub).1 () () () rfl rfl rfl

/-- Claim C4.  `AiService.parseAIResponse` extracts the greedy bracket
span — from the first left brace to the last right brace — and hands
exactly that span to JSON parsing and validation; when the text has no
such span, or JSON parsing of the span fails, it fails with the
`PARSING_ERROR` code (surfaced as `AI_RESPONSE_ERROR`) instead of
returning a recipe. -/
theorem parseAIResponse_spec (response : JStr) :
    (matchBraceSpan response = none →
        errCodeOf (parseAIResponse response) = some .PARSING_ERROR)
    ∧ (∀ span, matchBraceSpan response = some span →
        parseAIResponse response = parseSpanAndValidate span)
    ∧ (∀ span, matchBraceSpan response = some span →
        jsonParse span = none →
        errCodeOf (parseAIResponse response) = some .PARSING_ERROR)
    ∧ (∀ i j, findFirstIdx (· = openBrace) response = some i →
        findLastIdx (· = closeBrace) response = some j → i < j →
        matchBraceSpan response
          = some ((response.drop i).take (j - i + 1))) := by
  refine ⟨?_, ?_, ?_, ?_⟩
  · intro h
    simp [parseAIResponse, h, errCodeOf]
  · intro span h
    simp [parseAIResponse, h]
  · intro span h hj
    simp [parseAIResponse, h, parseSpanAndValidate, hj, errCodeOf]
  · intro i j hi hj hij
    simp [matchBraceSpan, hi, hj, hij]

/-- Claim C4, witness: a span-free text and a text whose span is not
JSON both fail with `PARSING_ERROR`. -/
theorem parseAIResponse_spec_witness :
    errCodeOf (parseAIResponse (S "there is no json here"))
      = some .PARSING_ERROR
    ∧ errCodeOf (parseAIResponse (S "junk \x7bnot json\x7d end"))
      = some .PARSING_ERROR :=
  ⟨(parseAIResponse_spec _).1 rfl,
   (parseAIResponse_spec _).2.2.1 (S "\x7bnot json\x7d") rfl rfl⟩

/-- Claim C5, counterexample.  The enhancer is not idempotent on every
syntactically valid recipe: for the valid recipe with title `"ab ."`,
stripping the trailing dot exposes a trailing space which only the
second application's trim removes, so applying `enhanceRecipe` twice
differs from applying it once. -/
theorem enhanceRecipe_idem_cex :
    specValidRecipe rBadTitle = true
    ∧ enhanceRecipe (enhanceRecipe rBadTitle) ≠ enhanceRecipe rBadTitle := by
  exact ⟨by decide, by decide⟩

/-- Claim C5, amended.  The enhancer is idempotent on already-clean
input — recipes it leaves unchanged — and its numeric clamping passes
`validateCookingTime` and `validateServings` are unconditionally
idempotent; it is not idempotent on all syntactically valid recipes. -/
theorem enhanceRecipe_idem_spec :
    (∀ r : Recipe, enhanceRecipe r = r →
        enhanceRecipe (enhanceRecipe r) = enhanceRecipe r)
    ∧ (∀ ct, validateCookingTime (validateCookingTime ct)
        = validateCookingTime ct)
    ∧ (∀ sv, validateServings (validateServings sv)
        = validateServings sv) := by
  refine ⟨fun r h => by rw [h, h], ?_, ?_⟩
  · intro ct
    cases ct with
    | none => rfl
    | some n =>
      simp only [validateCookingTime]
      split_ifs with h1 h2
      · simp [validateCookingTime]
      · simp [validateCookingTime]
      · simp [validateCookingTime, h1, h2]
  · intro sv
    cases sv with
    | none => rfl
    | some n =>
      simp only [validateServings]
      split_ifs with h1 h2
      · simp [validateServings]
      · simp [validateServings]
      · simp [validateServings, h1, h2]

/-- Claim C5, witness: a clean recipe fixed by the enhancer. -/
theorem enhanceRecipe_idem_spec_witness :
    enhanceRecipe rClean = rClean
    ∧ enhanceRecipe (enhanceRecipe rClean) = enhanceRecipe rClean :=
  ⟨by decide, enhanceRecipe_idem_spec.1 rClean (by decide)⟩

/-- Claim C6, counterexample.  In the enhancer that renumbers
(`RecipeEnhancerService.enhanceInstructions`, the only renumbering code
in the repository), the `"ok"` instruction is renumbered to `"2. ok."`
(6 characters) and therefore survives the length-at-most-3 filter: no
instruction derived from `"ok"` is dropped after renumbering. -/
theorem honoScenario_cex :
    enhanceInstructions [S "1. cut", S "ok"] = [S "1. cut.", S "2. ok."]
    ∧ 3 < (S "2. ok.").length :=
  ⟨rfl, by decide⟩

/-- Claim C6, amended.  For the end-to-end Hono pipeline on the stubbed
model response, the output recipe has ingredients exactly
`["onion", "chicken thigh"]` (exact-match dedup, first-seen order) and
instructions exactly `["1. cut"]`: the `"ok"` line is dropped because
instructions whose trimmed length is at most 3 characters are removed,
and no renumbering or reformatting is applied in this pipeline; the
quality info reports both removals. -/
theorem honoScenario_spec :
    honoPipeline stubModelResponse
      = some (⟨S "Stir-fry", S "Tasty",
               [S "onion", S "chicken thigh"], [S "1. cut"], none, none⟩,
              ⟨true,
               [S "重複した材料を除去しました", S "無効な手順を除去しました"],
               ⟨false, true, true⟩⟩) := rfl

/-- Claim C7, counterexample.  A present `cookingTime` of 2 is returned
unchanged, so the output is not clamped into `[5, 480]` as the claim
concludes. -/
theorem numericClamp_cex :
    validateCookingTime (some 2) = some 2 ∧ ¬(5 ≤ (2 : Int)) :=
  ⟨rfl, by decide⟩

/-- Claim C7, amended.  `validateCookingTime` maps values below 1 to 5
and values above 480 to 480 but passes values in `[1, 480]` through, so
its output lies in `[1, 480]` (not `[5, 480]`); `validateServings`
clamps into `[1, 20]`; the concrete mappings are 0 to 5, 1000 to 480,
0 to 1 and 100 to 20; an absent field stays absent. -/
theorem numericClamp_spec :
    (validateCookingTime none = none ∧ validateServings none = none)
    ∧ (∀ n : Int, n < 1 → validateCookingTime (some n) = some 5)
    ∧ (∀ n : Int, 480 < n → validateCookingTime (some n) = some 480)
    ∧ (∀ n : Int, 1 ≤ n → n ≤ 480 →
        validateCookingTime (some n) = some n)
    ∧ (∀ n r : Int, validateCookingTime (some n) = some r →
        1 ≤ r ∧ r ≤ 480)
    ∧ (∀ n : Int, n < 1 → validateServings (some n) = some 1)
    ∧ (∀ n : Int, 20 < n → validateServings (some n) = some 20)
    ∧ (∀ n : Int, 1 ≤ n → n ≤ 20 → validateServings (some n) = some n)
    ∧ (∀ n r : Int, validateServings (some n) = some r → 1 ≤ r ∧ r ≤ 20)
    ∧ validateCookingTime (some 0) = some 5
    ∧ validateCookingTime (some 1000) = some 480
    ∧ validateServings (some 0) = some 1
    ∧ validateServings (some 100) = some 20 := by
  refine ⟨⟨rfl, rfl⟩, ?_, ?_, ?_, ?_, ?_, ?_, ?_, ?_, by decide, by decide,
    by decide, by decide⟩
  · intro n h
    simp [validateCookingTime, h]
  · intro n h
    simp [validateCookingTime, h]
    omega
  · intro n h1 h2
    simp only [validateCookingTime]
    rw [if_neg (by omega), if_neg (by omega)]
  · intro n r h
    simp only [validateCookingTime] at h
    split_ifs at h with h1 h2
    · replace h := Option.some.inj h
      omega
    · replace h := Option.some.inj h
      omega
    · replace h := Option.some.inj h
      omega
  · intro n h
    simp [validateServings, h]
  · intro n h
    simp [validateServings, h]
    omega
  · intro n h1 h2
    simp only [validateServings]
    rw [if_neg (by omega), if_neg (by omega)]
  · intro n r h
    simp only [validateServings] at h
    split_ifs at h with h1 h2
    · replace h := Option.some.inj h
      omega
    · replace h := Option.some.inj h
      omega
    · replace h := Option.some.inj h
      omega

/-- Claim C7, witness: values inside the pass-through bands of both
fields are returned unchanged. -/
theorem numericClamp_spec_witness :
    validateCookingTime (some 7) = some 7
    ∧ validateServings (some 4) = some 4 :=
  ⟨numericClamp_spec.2.2.2.1 7 (by decide) (by decide),
   numericClamp_spec.2.2.2.2.2.2.2.1 4 (by decide) (by decide)⟩

/-- Claim C8.  Whenever the preprocessed object violates the `Recipe`
shape in one or more properties, `RecipeValidator.validate` throws an
error whose message contains the rendered violation line of every
violated property — all of them, not only the first. -/
theorem recipeValidate_aggregates_spec (data : JsonValue)
    (h : violatedFields (preprocessRecipeData data) ≠ []) :
    ∃ m, recipeValidate data = .error m
      ∧ ∀ f ∈ violatedFields (preprocessRecipeData data),
          substringOf (renderFieldError f) m := by
  refine ⟨validationFailedMessage (preprocessRecipeData data), ?_, ?_⟩
  · unfold recipeValidate
    rw [if_neg (by simpa [List.isEmpty_iff] using h)]
  · intro f hf
    apply substringOf_append_left
    apply substringOf_joinWith
    exact List.mem_map_of_mem _ hf

/-- Claim C8, witness: the empty object violates four properties and
each rendered violation occurs in the thrown message. -/
theorem recipeValidate_aggregates_witness :
    ∃ m, recipeValidate (JsonValue.obj []) = .error m
      ∧ ∀ f ∈ violatedFields (preprocessRecipeData (JsonValue.obj [])),
          substringOf (renderFieldError f) m :=
  recipeValidate_aggregates_spec (JsonValue.obj []) (by decide)

/-- Claim C9, counterexample.  The NestJS exception filter
(`AiExceptionFilter.buildErrorResponse`) returns the `REQUEST_TIMEOUT`
code with `HttpStatus.REQUEST_TIMEOUT`, which is HTTP 408, not the 504
the claim states: a generic error whose message mentions a timeout is
surfaced as `(408, REQUEST_TIMEOUT)`. -/
theorem errorStatusMapping_cex :
    buildErrorResponse (.err (S "Connection timeout"))
      = (408, S "REQUEST_TIMEOUT")
    ∧ (408 : Nat) ≠ 504 :=
  ⟨rfl, by decide⟩

/-- Claim C9, amended.  In the Hono generate route the status is
determined by the code exactly as claimed (`INVALID_REQUEST` 400,
`RATE_LIMIT_EXCEEDED` 429, `AI_SERVICE_UNAVAILABLE` 502,
`REQUEST_TIMEOUT` 504, `AI_RESPONSE_ERROR` 500,
`INTERNAL_SERVER_ERROR` 500), both in the `aiError` dispatch and at
every direct `createErrorResponse` call site; in the NestJS exception
filter the `AIGenerationError` codes and the rate-limit message
pattern also map as claimed, but a timeout message is returned as
`REQUEST_TIMEOUT` with HTTP 408 rather than 504. -/
theorem errorStatusMapping_spec :
    (∀ msg, (honoAiErrorDispatch msg).2
        = claimedStatus (honoAiErrorDispatch msg).1)
    ∧ (honoDirectErrorSites.all fun p => p.2 = claimedStatus p.1)
    ∧ (∀ m, buildErrorResponse (.aiGen .VALIDATION_ERROR m)
        = (claimedStatus .INVALID_REQUEST, S "INVALID_REQUEST"))
    ∧ (∀ m, buildErrorResponse (.aiGen .PARSING_ERROR m)
        = (claimedStatus .AI_RESPONSE_ERROR, S "AI_RESPONSE_ERROR"))
    ∧ (∀ m, buildErrorResponse (.aiGen .AI_API_ERROR m)
        = (claimedStatus .AI_SERVICE_UNAVAILABLE, S "AI_SERVICE_UNAVAILABLE"))
    ∧ (∀ m, containsSub (S "API key") m = false →
        (containsSub (S "timeout") m || containsSub (S "TIMEOUT") m) = true →
        buildErrorResponse (.err m) = (408, S "REQUEST_TIMEOUT"))
    ∧ (∀ m, containsSub (S "API key") m = false →
        (containsSub (S "timeout") m || containsSub (S "TIMEOUT") m)
          = false →
        (containsSub (S "rate limit") m || containsSub (S "quota") m)
          = true →
        buildErrorResponse (.err m)
          = (claimedStatus .RATE_LIMIT_EXCEEDED, S "RATE_LIMIT_EXCEEDED")) := by
  refine ⟨?_, by decide, fun m => rfl, fun m => rfl, fun m => rfl, ?_, ?_⟩
  · intro msg
    unfold honoAiErrorDispatch
    split_ifs <;> rfl
  · intro m hk ht
    simp [buildErrorResponse, hk, ht]
  · intro m hk ht hr
    simp [buildErrorResponse, hk, ht, hr, claimedStatus]

/-- Claim C9, witness: a timeout-message error through the NestJS
filter. -/
theorem errorStatusMapping_spec_witness :
    buildErrorResponse (.err (S "request timeout occurred"))
      = (408, S "REQUEST_TIMEOUT") :=
  errorStatusMapping_spec.2.2.2.2.2.1 (S "request timeout occurred") rfl rfl

/-- Claim C10.  After trimming, truncation and trailing-punctuation
stripping (`titlePreCap`), `RecipeEnhancerService.enhanceTitle`
uppercases the first character exactly when it is a lowercase ASCII
letter, leaving the rest unchanged; any other first character is kept
as-is. -/
theorem enhanceTitle_capitalize_spec (t : JStr) :
    (titlePreCap t = [] → enhanceTitle t = [])
    ∧ (∀ c rest, titlePreCap t = c :: rest →
        (isLowerAsciiChar c = true →
          enhanceTitle t = Char.toUpper c :: rest)
        ∧ (isLowerAsciiChar c = false → enhanceTitle t = c :: rest)) := by
  constructor
  · intro h
    simp [enhanceTitle, h]
  · intro c rest h
    constructor
    · intro hl
      simp [enhanceTitle, h, hl]
    · intro hl
      simp [enhanceTitle, h, hl]

/-- Claim C10, witness: a lowercase-initial title is capitalized and a
digit-initial title is kept as-is. -/
theorem enhanceTitle_capitalize_spec_witness :
    enhanceTitle (S "stir-fry") = Char.toUpper 's' :: S "tir-fry"
    ∧ enhanceTitle (S "123 abc") = '1' :: S "23 abc" :=
  ⟨((enhanceTitle_capitalize_spec (S "stir-fry")).2 's' (S "tir-fry")
      rfl).1 rfl,
   ((enhanceTitle_capitalize_spec (S "123 abc")).2 '1' (S "23 abc")
      rfl).2 rfl⟩

end Aigohan
